import Mathlib

/-!
Shallow embedding of `src/plugins/GenWeightsTableProducer.cc` (NanoAOD).

Modelling conventions:
* C++ `double` / `long double` / `float` values are modelled as `ℚ` (exact
  rationals); `long long` as `ℤ`; `unsigned int` / `uint32_t` as `ℕ`.
* `std::vector` is `List`; out-of-bounds `operator[]` accesses are modelled by
  returning `none` from the enclosing operation (`Option`).
* A header line is modelled by which of the four regexes of
  `globalBeginRun` match it (`weightgroup`, `</weightgroup>`,
  the scale-weight pattern, the PDF-weight pattern) together with the captured
  groups; `std::stof` on the captured `muR`/`muF` strings is modelled by
  carrying the parsed rational directly.
* `std::stringstream` constructed from an initial string starts with its write
  position at 0 (no `std::ios_base::ate`), so insertions overwrite the initial
  content; `OStringStream` reproduces exactly that semantics.
-/

/-- Counter of `GenWeightsTableProducer.cc` lines 18-64: per-stream running
sums.  Field order follows the source declaration order
(`num`, `sumw`, `sumw2`, `sumPDF`, `sumScale`, `sumNamed`). -/
structure Counter where
  num : ℤ
  sumw : ℚ
  sumw2 : ℚ
  sumPDF : List ℚ
  sumScale : List ℚ
  sumNamed : List ℚ

/-- The `Counter()` default constructor (source lines 19-20): everything zero
or empty. -/
def Counter.mkNew : Counter := ⟨0, 0, 0, [], [], []⟩

/-- `Counter::clear` (source lines 28-31). -/
def Counter.clear (_c : Counter) : Counter := Counter.mkNew

/-- `Counter::incGenOnly` (source lines 34-36). -/
def Counter.incGenOnly (c : Counter) (w : ℚ) : Counter :=
  { c with num := c.num + 1, sumw := c.sumw + w, sumw2 := c.sumw2 + w * w }

/-- One variation-vector block of `Counter::incLHE` (source lines 41-52):
if the incoming array is non-empty, resize the sum to its length when the sum
is empty, then run `sum[i] += w0 * var[i]` for `i < var.size()`.  The write
`sum[i]` is in bounds only when `var.size() ≤ sum.size()`; an out-of-bounds
access is modelled as `none`. -/
def accBlock (sum : List ℚ) (w0 : ℚ) (var : List ℚ) : Option (List ℚ) :=
  if var.isEmpty then some sum
  else
    let s := if sum.isEmpty then List.replicate var.length 0 else sum
    if var.length ≤ s.length then
      some ((List.zipWith (fun a b => a + w0 * b) (s.take var.length) var) ++ s.drop var.length)
    else none

/-- `Counter::incLHE` (source lines 37-53). -/
def Counter.incLHE (c : Counter) (w0 : ℚ) (wScale wPDF wNamed : List ℚ) : Option Counter :=
  let c := c.incGenOnly w0
  do
    let ss ← accBlock c.sumScale w0 wScale
    let sp ← accBlock c.sumPDF w0 wPDF
    let sn ← accBlock c.sumNamed w0 wNamed
    pure { c with sumScale := ss, sumPDF := sp, sumNamed := sn }

/-- The resize guard of `Counter::merge` (source lines 57-59): a local vector
is zero-filled to the other's length only when the local one is empty and the
other is not. -/
def resizeIfEmpty (loc other : List ℚ) : List ℚ :=
  if loc.isEmpty && !other.isEmpty then List.replicate other.length 0 else loc

/-- One loop of `Counter::merge` (source lines 60-62):
`for i < s.size(): s[i] += o[i]`.  Reading `o[i]` is in bounds only when
`s.size() ≤ o.size()`; otherwise the merge performs an out-of-bounds vector
access, modelled as `none`. -/
def mergeLoop (s o : List ℚ) : Option (List ℚ) :=
  if s.length ≤ o.length then some (List.zipWith (· + ·) s (o.take s.length))
  else none

/-- `Counter::merge` (source lines 55-63): scalar fields add; each vector is
resized per `resizeIfEmpty` and then element-wise added per `mergeLoop`.
The source runs the scale loop first (line 60), then PDF, then named. -/
def Counter.merge (c other : Counter) : Option Counter :=
  let base := { c with num := c.num + other.num, sumw := c.sumw + other.sumw,
                       sumw2 := c.sumw2 + other.sumw2 }
  do
    let ss ← mergeLoop (resizeIfEmpty base.sumScale other.sumScale) other.sumScale
    let sp ← mergeLoop (resizeIfEmpty base.sumPDF other.sumPDF) other.sumPDF
    let sn ← mergeLoop (resizeIfEmpty base.sumNamed other.sumNamed) other.sumNamed
    pure { base with sumScale := ss, sumPDF := sp, sumNamed := sn }

/-- DynamicWeightChoice of source lines 67-75. -/
structure DynamicWeightChoice where
  scaleWeightIDs : List String
  scaleWeightsDoc : String
  pdfWeightIDs : List String
  pdfWeightsDoc : String

/-- The value of `std::make_shared<DynamicWeightChoice>()` (source line 218):
default-constructed, all fields empty. -/
def DynamicWeightChoice.mkNew : DynamicWeightChoice := ⟨[], "", [], ""⟩

/-- ScaleVarWeight of source lines 78-84.  `scales` holds the
`std::stof`-parsed `(muR, muF)` pair. -/
structure ScaleVarWeight where
  wid : String
  label : String
  scales : ℚ × ℚ

/-- C++ `std::string::operator<` on the two identifier strings: lexicographic
comparison of the character sequences by character code. -/
def strLtB : List Char → List Char → Bool
  | [], [] => false
  | [], _ :: _ => true
  | _ :: _, [] => false
  | a :: as, b :: bs =>
    if a.toNat < b.toNat then true
    else if b.toNat < a.toNat then false
    else strLtB as bs

/-- C++ `std::pair<float,float>::operator<`: lexicographic. -/
def pairLtB (a b : ℚ × ℚ) : Bool :=
  if a.1 < b.1 then true
  else if b.1 < a.1 then false
  else decide (a.2 < b.2)

/-- `ScaleVarWeight::operator<` (source line 83):
`scales == other.scales ? wid < other.wid : scales < other.scales`. -/
def ScaleVarWeight.ltB (a b : ScaleVarWeight) : Bool :=
  if a.scales = b.scales then strLtB a.wid.data b.wid.data
  else pairLtB a.scales b.scales

/-- Insertion step used to model `std::sort` over `ScaleVarWeight::operator<`
(source line 293).  The comparator is a strict weak order; on the inputs the
claims exercise it is a strict total order, for which every conforming sort
returns the same list. -/
def insertScaleVar (x : ScaleVarWeight) : List ScaleVarWeight → List ScaleVarWeight
  | [] => [x]
  | y :: ys => if ScaleVarWeight.ltB x y then x :: y :: ys else y :: insertScaleVar x ys

/-- Sorting of `scaleVariationIDs` (source line 293). -/
def sortScaleVar : List ScaleVarWeight → List ScaleVarWeight
  | [] => []
  | x :: xs => insertScaleVar x (sortScaleVar xs)

/-- PDFSetWeights of source lines 85-99. -/
structure PDFSetWeights where
  wids : List String
  lhaIDs : ℕ × ℕ

/-- The collection step of source line 263:
`if (pdfSetWeightIDs.empty() || !pdfSetWeightIDs.back().maybe_add(wid, lhaID))
pdfSetWeightIDs.emplace_back(wid, lhaID)`, where `PDFSetWeights::maybe_add`
(source lines 90-98) extends the last group iff `lhaID == lhaIDs.second + 1`. -/
def addPdfWeight (ps : List PDFSetWeights) (wid : String) (lhaID : ℕ) : List PDFSetWeights :=
  match ps.getLast? with
  | none => [⟨[wid], (lhaID, lhaID)⟩]
  | some last =>
    if lhaID = last.lhaIDs.2 + 1 then
      ps.dropLast ++ [⟨last.wids ++ [wid], (last.lhaIDs.1, last.lhaIDs.2 + 1)⟩]
    else ps ++ [⟨[wid], (lhaID, lhaID)⟩]

/-- One text line of an LHE header block, represented by which of the four
regexes of `globalBeginRun` (source lines 226-229) match it via
`std::regex_search`, together with their capture groups:
`wgMatch` carries `(combine, name)` of the `weightgroup` opener pattern;
`endMatch` is the `</weightgroup>` pattern; `scaleMatch` carries
`(id, full inner text, stof muR, stof muF)` of the scale-weight pattern;
`pdfMatch` carries `(id, stoi lhaID)` of the PDF-weight pattern. -/
structure HeaderLine where
  wgMatch : Option (String × String)
  endMatch : Bool
  scaleMatch : Option (String × String × ℚ × ℚ)
  pdfMatch : Option (String × ℕ)

/-- The classification of a literal `</weightgroup>` line: it matches only the
`endweightgroup` regex. -/
def endGroupLine : HeaderLine := ⟨none, true, none, none⟩

/-- Position of the line scan of source lines 238-289: either in the outer
loop, or inside one of the three inner loops (scale_variation group,
PDF_variation group, any other group). -/
inductive ScanMode where
  | outside
  | inScale
  | inPDF
  | inOther

/-- Dispatch on the captured group name (source lines 242, 257, 275). -/
def dispatchMode (name : String) : ScanMode :=
  if name = "scale_variation" then ScanMode.inScale
  else if name = "PDF_variation" then ScanMode.inPDF
  else ScanMode.inOther

/-- One step of the header line scan (source lines 238-289).  Each branch
tests the regexes in the order the source does.  The `--iLine; break` rewind
(lines 253, 271, 283) makes the outer loop re-dispatch on the very opener line
that ended the group, which is the transition `dispatchMode` performs here. -/
def parseStep (mode : ScanMode) (l : HeaderLine) (sv : List ScaleVarWeight)
    (pv : List PDFSetWeights) : ScanMode × List ScaleVarWeight × List PDFSetWeights :=
  match mode with
  | ScanMode.outside =>
    match l.wgMatch with
    | some g => (dispatchMode g.2, sv, pv)
    | none => (ScanMode.outside, sv, pv)
  | ScanMode.inScale =>
    match l.scaleMatch with
    | some m => (ScanMode.inScale, sv ++ [⟨m.1, m.2.1, (m.2.2.1, m.2.2.2)⟩], pv)
    | none =>
      if l.endMatch then (ScanMode.outside, sv, pv)
      else
        match l.wgMatch with
        | some g => (dispatchMode g.2, sv, pv)
        | none => (ScanMode.inScale, sv, pv)
  | ScanMode.inPDF =>
    match l.pdfMatch with
    | some m => (ScanMode.inPDF, sv, addPdfWeight pv m.1 m.2)
    | none =>
      if l.endMatch then (ScanMode.outside, sv, pv)
      else
        match l.wgMatch with
        | some g => (dispatchMode g.2, sv, pv)
        | none => (ScanMode.inPDF, sv, pv)
  | ScanMode.inOther =>
    if l.endMatch then (ScanMode.outside, sv, pv)
    else
      match l.wgMatch with
      | some g => (dispatchMode g.2, sv, pv)
      | none => (ScanMode.inOther, sv, pv)

/-- The full line scan of one `initrwgt` block (source lines 238-289),
accumulating scale variations and PDF groups. -/
def parseLines (mode : ScanMode) : List HeaderLine → List ScaleVarWeight → List PDFSetWeights →
    List ScaleVarWeight × List PDFSetWeights
  | [], sv, pv => (sv, pv)
  | l :: ls, sv, pv =>
    let s := parseStep mode l sv pv
    parseLines s.1 ls s.2.1 s.2.2

/-- A C++ `std::stringstream` opened with initial content: the buffer together
with the write position, which starts at 0, so that subsequent insertions
overwrite the initial content character by character and only extend the
buffer once past its end.  `str()` returns the whole buffer. -/
structure OStringStream where
  buf : List Char
  pos : ℕ

/-- `std::stringstream ss(s)` (no `ate`): write position 0. -/
def OStringStream.ofString (s : String) : OStringStream := ⟨s.data, 0⟩

/-- `ss << s`: overwrite-or-extend at the current write position. -/
def OStringStream.write (st : OStringStream) (s : String) : OStringStream :=
  ⟨st.buf.take st.pos ++ s.data ++ st.buf.drop (st.pos + s.data.length),
   st.pos + s.data.length⟩

/-- `ss.str()`. -/
def OStringStream.str (st : OStringStream) : String := ⟨st.buf⟩

/-- The scale doc-string construction of source lines 295-299: the stream is
constructed with the prefix as initial content and then written from position
0; `isw` is printed in decimal, `"; "` separates entries for `isw > 0`. -/
def scaleDocStream (sorted : List ScaleVarWeight) : OStringStream :=
  (sorted.enum.foldl
    (fun st p =>
      (((if p.1 ≠ 0 then st.write "; " else st).write "[").write (Nat.repr p.1)).write
          "] is " |>.write p.2.label)
    (OStringStream.ofString "LHE scale variation weights (w_var / w_nominal); "))

/-- The PDF doc-string construction of source lines 311 and 316: the stream is
constructed with the prefix as initial content and then written from position
0 in the found branch; `std::endl` writes a newline. -/
def pdfDocStream (pw : PDFSetWeights) : OStringStream :=
  ((((OStringStream.ofString
        "LHE pdf variation weights (w_var / w_nominal) for LHA IDs ").write
      (Nat.repr pw.lhaIDs.1)).write " - ").write (Nat.repr pw.lhaIDs.2)).write "\n"

/-- The preferred-PDF selection loop of source lines 313-322: for each
preferred LHA id in order, take the first collected group whose range starts
exactly at it; the first hit wins. -/
def selectPDF (preferred : List ℕ) (groups : List PDFSetWeights) : Option PDFSetWeights :=
  match preferred with
  | [] => none
  | p :: ps =>
    match groups.find? (fun pw => pw.lhaIDs.1 == p) with
    | some pw => some pw
    | none => selectPDF ps groups

/-- The per-block post-processing of source lines 292-322: sort the collected
scale variations, append their ids to `scaleWeightIDs`, set `scaleWeightsDoc`
iff any were collected; then run the preferred-PDF selection, overwriting
`pdfWeightIDs`/`pdfWeightsDoc` on a hit. -/
def processBlock (choice : DynamicWeightChoice) (sv : List ScaleVarWeight)
    (pv : List PDFSetWeights) (preferred : List ℕ) : DynamicWeightChoice :=
  let sorted := sortScaleVar sv
  let choice :=
    { choice with
      scaleWeightIDs := choice.scaleWeightIDs ++ sorted.map (fun w => w.wid),
      scaleWeightsDoc :=
        if sorted.isEmpty then choice.scaleWeightsDoc else (scaleDocStream sorted).str }
  match selectPDF preferred pv with
  | some pw =>
    { choice with pdfWeightIDs := pw.wids, pdfWeightsDoc := (pdfDocStream pw).str }
  | none => choice

/-- One header block of the LHE run record: a tag and its text lines
(cf. `iter->tag()` and `iter->lines()`, source lines 232 and 237). -/
structure HeaderBlock where
  tag : String
  lines : List HeaderLine

/-- `GenWeightsTableProducer::globalBeginRun` (source lines 214-326).
`lhe = none` models `iRun.getByLabel` finding no `LHERunInfoProduct`.
`scaleVariationIDs` and `pdfSetWeightIDs` are declared outside the header loop
(lines 223-224) and therefore persist across blocks, while the per-block
post-processing runs once per `initrwgt` block. -/
def globalBeginRun (lhe : Option (List HeaderBlock)) (preferred : List ℕ) :
    DynamicWeightChoice :=
  match lhe with
  | none => DynamicWeightChoice.mkNew
  | some headers =>
    (headers.foldl
      (fun st hb =>
        if hb.tag ≠ "initrwgt" then st
        else
          let parsed := parseLines ScanMode.outside hb.lines st.1 st.2.1
          (parsed.1, parsed.2, processBlock st.2.2 parsed.1 parsed.2 preferred))
      ([], [], DynamicWeightChoice.mkNew)).2.2

/-- FlatTable as used by the producer: row count, table name, singleton flag,
table doc (`setDoc`), and the columns added by `addColumn`/`addColumnValue`
as `(column name, values, column doc)`.  All columns the producer adds are
`FloatColumn`s, so the column type tag is not modelled. -/
structure FlatTable where
  nrows : ℕ
  name : String
  singleton : Bool
  doc : String
  columns : List (String × List ℚ × String)

/-- Values of the first column of a table (the unnamed column filled by
`addColumn` for the scale and PDF tables). -/
def FlatTable.colVals (t : FlatTable) : List ℚ :=
  match t.columns with
  | [] => []
  | c :: _ => c.2.1

/-- LHEEventProduct as consumed by the producer: `originalXWGTUP()` and the
`weights()` list of `(id, wgt)` pairs. -/
structure LHEEventProduct where
  originalXWGTUP : ℚ
  weights : List (String × ℚ)

/-- `std::find` over a vector of strings (source lines 188, 191, 194),
returning the index of the first occurrence. -/
def stdFind : List String → String → Option ℕ
  | [], _ => none
  | x :: xs, y => if x = y then some 0 else (stdFind xs y).map (fun n => n + 1)

/-- One lookup-and-overwrite of the event loop (source lines 188-195): find
the weight id in the configured id list and overwrite the slot at the found
index with `wgt / w0`. -/
def applyWeight (ids : List String) (acc : List ℚ) (w : String × ℚ) (w0 : ℚ) : List ℚ :=
  match stdFind ids w.1 with
  | some j => acc.set j (w.2 / w0)
  | none => acc

/-- The whole event loop of source lines 184-196 restricted to one id list:
start from a vector of ones and overwrite matched slots in event order. -/
def fillWeights (ids : List String) (ws : List (String × ℚ)) (w0 : ℚ) : List ℚ :=
  ws.foldl (fun acc w => applyWeight ids acc w w0) (List.replicate ids.length 1)

/-- `GenWeightsTableProducer::fillLHEWeightTables` (source lines 168-211):
returns the updated counter (`incLHE`) and the three tables
(`LHEScaleWeight`, `LHEPdfWeight`, `LHEWeight`).  The single loop over
`lheProd.weights()` updates the three vectors independently per iteration. -/
def fillLHEWeightTables (counter : Counter) (choice : DynamicWeightChoice)
    (genWeight : ℚ) (lheProd : LHEEventProduct)
    (namedWeightIDs namedWeightLabels : List String) :
    Option Counter × FlatTable × FlatTable × FlatTable :=
  let scaleWeightIDs := choice.scaleWeightIDs
  let pdfWeightIDs := choice.pdfWeightIDs
  let w0 := lheProd.originalXWGTUP
  let res := lheProd.weights.foldl
    (fun acc w =>
      (applyWeight scaleWeightIDs acc.1 w w0,
       applyWeight pdfWeightIDs acc.2.1 w w0,
       applyWeight namedWeightIDs acc.2.2 w w0))
    (List.replicate scaleWeightIDs.length 1,
     List.replicate pdfWeightIDs.length 1,
     List.replicate namedWeightIDs.length 1)
  let wScale := res.1
  let wPDF := res.2.1
  let wNamed := res.2.2
  let outScale : FlatTable :=
    ⟨wScale.length, "LHEScaleWeight", false, "", [("", wScale, choice.scaleWeightsDoc)]⟩
  let outPdf : FlatTable :=
    ⟨wPDF.length, "LHEPdfWeight", false, "", [("", wPDF, choice.pdfWeightsDoc)]⟩
  let outNamed : FlatTable :=
    ⟨1, "LHEWeight", true, "",
     ("originalXWGTUP", [lheProd.originalXWGTUP], "Nominal event weight in the LHE file") ::
       (namedWeightLabels.zip (namedWeightIDs.zip wNamed)).map
         (fun p => (p.1, [p.2.2], "LHE weight for id " ++ p.2.1 ++ ", relative to nominal"))⟩
  (counter.incLHE genWeight wScale wPDF wNamed, outScale, outPdf, outNamed)

/-- `GenWeightsTableProducer::produce` (source lines 127-166): the `genWeight`
table is always emitted; with an LHE payload the tables come from
`fillLHEWeightTables`, otherwise the counter is advanced by `incGenOnly` and
three dummy single-row tables with no columns are emitted.  Returned as
(updated counter, genWeight table, LHEScale, LHEPdf, LHENamed). -/
def produce (counter : Counter) (choice : DynamicWeightChoice) (genWeight : ℚ)
    (lhe : Option LHEEventProduct) (namedWeightIDs namedWeightLabels : List String) :
    Option Counter × FlatTable × FlatTable × FlatTable × FlatTable :=
  let genTab : FlatTable :=
    ⟨1, "genWeight", true, "generator weight", [("", [genWeight], "generator weight")]⟩
  match lhe with
  | some prod =>
    let r := fillLHEWeightTables counter choice genWeight prod namedWeightIDs namedWeightLabels
    (r.1, genTab, r.2.1, r.2.2.1, r.2.2.2)
  | none =>
    (some (counter.incGenOnly genWeight), genTab,
     ⟨1, "LHEScaleWeights", true, "", []⟩,
     ⟨1, "LHEPdfWeights", true, "", []⟩,
     ⟨1, "LHENamedWeights", true, "", []⟩)

/-- `hasIssuedWarning_(false)` (source line 113): the latch starts `false`. -/
def hasIssuedWarningAtStart : Bool := false

/-- `hasIssuedWarning_.exchange(false)` (source line 158): returns the old
value and stores `false`.  Since the only value ever stored is `false`, the
result is the same under every interleaving of concurrent streams. -/
def exchangeFalse (flag : Bool) : Bool × Bool := (flag, false)

/-- Number of "No LHEEventProduct" warnings emitted over `n` consecutive
events without an LHE payload, starting from latch state `flag`
(source lines 158-160: the warning is emitted when `!exchange(false)`). -/
def warningsEmitted (flag : Bool) : ℕ → ℕ
  | 0 => 0
  | n + 1 =>
    let e := exchangeFalse flag
    (if !e.1 then 1 else 0) + warningsEmitted e.2 n

/-- The configuration state retained by a successfully constructed producer. -/
structure ProducerConfig where
  preferredPDFLHAIDs : List ℕ
  namedWeightIDs : List String
  namedWeightLabels : List String

/-- The constructor body check of source lines 120-122: a
`cms::Exception("Configuration", ...)` is thrown iff the two named-weight
lists differ in length, before any run or event processing can happen. -/
def GenWeightsTableProducer.construct (preferred : List ℕ)
    (namedWeightIDs namedWeightLabels : List String) : Except String ProducerConfig :=
  if namedWeightIDs.length ≠ namedWeightLabels.length then
    Except.error "Size mismatch between namedWeightIDs & namedWeightLabels"
  else
    Except.ok ⟨preferred, namedWeightIDs, namedWeightLabels⟩

/-- Spec-side definition, for comparison with the code (spec section 4.3):
the normalized value of the slot configured with identifier `idStr` is
`w_matching / w0` where the later occurrence in the event list wins, and `1`
when the identifier never occurs. -/
def specNormalizedWeight (ws : List (String × ℚ)) (idStr : String) (w0 : ℚ) : ℚ :=
  ws.foldl (fun v w => if w.1 = idStr then w.2 / w0 else v) 1

/-! Helper lemmas about the header line scan. -/

/-- A pure `</weightgroup>` line closes any group and is skipped by the outer
loop, so from every scan mode it steps to `outside` without touching the
accumulators. -/
theorem parseStep_endGroup (mode : ScanMode) (sv : List ScaleVarWeight)
    (pv : List PDFSetWeights) :
    parseStep mode endGroupLine sv pv = (ScanMode.outside, sv, pv) := by
  cases mode <;> rfl

/-- A line matching only the `weightgroup` opener regex makes every scan mode
re-dispatch on its group name: the outer loop dispatches directly, and each
inner loop performs the implicit close (rewind and re-dispatch). -/
theorem parseStep_opener (mode : ScanMode) (l : HeaderLine) (g : String × String)
    (sv : List ScaleVarWeight) (pv : List PDFSetWeights)
    (hwg : l.wgMatch = some g) (hsc : l.scaleMatch = none)
    (hpdf : l.pdfMatch = none) (hend : l.endMatch = false) :
    parseStep mode l sv pv = (dispatchMode g.2, sv, pv) := by
  cases mode <;> simp [parseStep, hwg, hsc, hpdf, hend]

/-- Inserting an explicit `</weightgroup>` closer directly before an opener
line changes nothing about the line scan, from any starting mode and
accumulators: the closer either terminates the current group that the opener
would have implicitly closed, or is skipped by the outer loop. -/
theorem parseLines_insert_close (l : HeaderLine) (g : String × String)
    (ls2 : List HeaderLine)
    (hwg : l.wgMatch = some g) (hsc : l.scaleMatch = none)
    (hpdf : l.pdfMatch = none) (hend : l.endMatch = false) :
    ∀ (ls1 : List HeaderLine) (mode : ScanMode) (sv : List ScaleVarWeight)
      (pv : List PDFSetWeights),
      parseLines mode (ls1 ++ endGroupLine :: l :: ls2) sv pv =
        parseLines mode (ls1 ++ l :: ls2) sv pv := by
  intro ls1
  induction ls1 with
  | nil =>
    intro mode sv pv
    simp only [List.nil_append, parseLines, parseStep_endGroup,
      parseStep_opener ScanMode.outside l g sv pv hwg hsc hpdf hend,
      parseStep_opener mode l g sv pv hwg hsc hpdf hend]
  | cons x t ih =>
    intro mode sv pv
    simp only [List.cons_append, parseLines]
    exact ih _ _ _

/-- Claim C6: for every header in which a `</weightgroup>` closer is omitted
before a subsequent `<weightgroup ...>` opener, `globalBeginRun` yields a
`DynamicWeightChoice` identical (all four fields) to the one obtained from the
corresponding well-formed header with the closer present.  `l` is a genuine
opener line: it matches the `weightgroup` regex and none of the other three
patterns. -/
theorem c6_implicit_close_idempotent (pre post : List HeaderLine) (l : HeaderLine)
    (g : String × String) (preferred : List ℕ)
    (hwg : l.wgMatch = some g) (hsc : l.scaleMatch = none)
    (hpdf : l.pdfMatch = none) (hend : l.endMatch = false) :
    globalBeginRun (some [⟨"initrwgt", pre ++ l :: post⟩]) preferred =
      globalBeginRun (some [⟨"initrwgt", pre ++ endGroupLine :: l :: post⟩]) preferred := by
  simp only [globalBeginRun, List.foldl_cons, List.foldl_nil]
  rw [if_neg (by simp)]
  rw [if_neg (by simp)]
  rw [parseLines_insert_close l g post hwg hsc hpdf hend]

/-- Witness for C6, the end-to-end scenario of spec section 8 item 6: a
scale_variation group whose closer is omitted before a PDF_variation opener
parses identically to the well-formed header. -/
theorem c6_witness :
    globalBeginRun (some [⟨"initrwgt",
      [⟨some ("", "scale_variation"), false, none, none⟩,
       ⟨none, false, some ("1", "muR=1 muF=1", 1, 1), none⟩,
       ⟨some ("", "PDF_variation"), false, none, none⟩,
       ⟨none, false, none, some ("2", 260000)⟩,
       endGroupLine]⟩]) [260000] =
    globalBeginRun (some [⟨"initrwgt",
      [⟨some ("", "scale_variation"), false, none, none⟩,
       ⟨none, false, some ("1", "muR=1 muF=1", 1, 1), none⟩,
       endGroupLine,
       ⟨some ("", "PDF_variation"), false, none, none⟩,
       ⟨none, false, none, some ("2", 260000)⟩,
       endGroupLine]⟩]) [260000] :=
  c6_implicit_close_idempotent
    [⟨some ("", "scale_variation"), false, none, none⟩,
     ⟨none, false, some ("1", "muR=1 muF=1", 1, 1), none⟩]
    [⟨none, false, none, some ("2", 260000)⟩, endGroupLine]
    ⟨some ("", "PDF_variation"), false, none, none⟩
    ("", "PDF_variation") [260000] rfl rfl rfl rfl

/-- When no preferred LHA id matches any collected group's range start, the
selection loop finds nothing. -/
theorem selectPDF_eq_none (ps : List ℕ) (gs : List PDFSetWeights)
    (h : ∀ p ∈ ps, ∀ g ∈ gs, g.lhaIDs.1 ≠ p) : selectPDF ps gs = none := by
  induction ps with
  | nil => rfl
  | cons p pt ih =>
    have hfind : gs.find? (fun pw => pw.lhaIDs.1 == p) = none := by
      refine List.find?_eq_none.mpr (fun g hg => ?_)
      simpa using h p (List.mem_cons_self p pt) g hg
    simp only [selectPDF, hfind]
    exact ih (fun q hq g hg => h q (List.mem_cons_of_mem p hq) g hg)

/-- Claim C2: for preferred LHA ids `[A, B, C]` in priority order, if no
collected group starts at `A` and some group starts at `B`, the per-block
post-processing copies the identifier list of the first group starting at `B`
into `pdfWeightIDs`; and if no preferred id matches any group's range start,
`pdfWeightIDs` and `pdfWeightsDoc` are left exactly as they were (hence empty
when starting from the fresh run choice). -/
theorem c2_pdf_selection (choice : DynamicWeightChoice) (sv : List ScaleVarWeight)
    (gs : List PDFSetWeights) (A B C : ℕ) :
    ((∀ g ∈ gs, g.lhaIDs.1 ≠ A) →
      ∀ gB, gs.find? (fun pw => pw.lhaIDs.1 == B) = some gB →
        (processBlock choice sv gs [A, B, C]).pdfWeightIDs = gB.wids) ∧
    (∀ ps : List ℕ, (∀ p ∈ ps, ∀ g ∈ gs, g.lhaIDs.1 ≠ p) →
      (processBlock choice sv gs ps).pdfWeightIDs = choice.pdfWeightIDs ∧
      (processBlock choice sv gs ps).pdfWeightsDoc = choice.pdfWeightsDoc) := by
  constructor
  · intro hA gB hB
    have hfindA : gs.find? (fun pw => pw.lhaIDs.1 == A) = none := by
      refine List.find?_eq_none.mpr (fun g hg => ?_)
      simpa using hA g hg
    simp only [processBlock, selectPDF, hfindA, hB]
  · intro ps hps
    have hnone : selectPDF ps gs = none := selectPDF_eq_none ps gs hps
    simp only [processBlock, hnone]
    exact ⟨trivial, trivial⟩

/-- Witness for C2 at the concrete input of spec section 8 scenario 3 shape:
preferred ids `[260000, 306000, 9]`, a single collected group starting at
306000; and no-match preferred list `[111]`. -/
theorem c2_witness :
    (processBlock DynamicWeightChoice.mkNew [] [⟨["w1", "w2"], (306000, 306001)⟩]
        [260000, 306000, 9]).pdfWeightIDs = ["w1", "w2"] ∧
    (processBlock DynamicWeightChoice.mkNew [] [⟨["w1", "w2"], (306000, 306001)⟩]
        [111]).pdfWeightIDs = [] :=
  ⟨(c2_pdf_selection DynamicWeightChoice.mkNew [] [⟨["w1", "w2"], (306000, 306001)⟩]
      260000 306000 9).1 (by decide) ⟨["w1", "w2"], (306000, 306001)⟩ rfl,
   ((c2_pdf_selection DynamicWeightChoice.mkNew [] [⟨["w1", "w2"], (306000, 306001)⟩]
      260000 306000 9).2 [111] (by decide)).1.trans rfl⟩

/-- `std::find` returns an index holding the sought element. -/
theorem stdFind_getElem? (ids : List String) (x : String) :
    ∀ j, stdFind ids x = some j → ids[j]? = some x := by
  induction ids with
  | nil => intro j h; simp [stdFind] at h
  | cons a tl ih =>
    intro j h
    by_cases hax : a = x
    · simp only [stdFind, if_pos hax] at h
      cases h
      simpa using hax
    · simp only [stdFind, if_neg hax, Option.map_eq_some'] at h
      obtain ⟨j', hj', rfl⟩ := h
      simpa using ih j' hj'

/-- On a duplicate-free id list, `std::find` locates exactly the slot whose
configured id is the sought one. -/
theorem stdFind_of_nodup (ids : List String) (x : String) (hnd : ids.Nodup) :
    ∀ i, ids[i]? = some x → stdFind ids x = some i := by
  induction ids with
  | nil => intro i h; simp at h
  | cons a tl ih =>
    intro i h
    obtain ⟨ha, hnd'⟩ := List.nodup_cons.mp hnd
    match i with
    | 0 =>
      simp only [List.getElem?_cons_zero, Option.some.injEq] at h
      simp [stdFind, h]
    | i + 1 =>
      rw [List.getElem?_cons_succ] at h
      have hax : a ≠ x := fun hax => ha (hax ▸ List.getElem?_mem h)
      simp only [stdFind, if_neg hax, ih hnd' i h, Option.map_some']

/-- `applyWeight` preserves the vector length. -/
theorem applyWeight_length (ids : List String) (acc : List ℚ) (w : String × ℚ) (w0 : ℚ) :
    (applyWeight ids acc w w0).length = acc.length := by
  unfold applyWeight
  cases stdFind ids w.1 <;> simp

/-- Slot `i` of the event-loop fold tracks exactly the last event occurrence
of the id configured at slot `i`, provided the configured id list is
duplicate-free. -/
theorem foldl_applyWeight_getElem? (ids : List String) (w0 : ℚ) (i : ℕ) (idi : String)
    (hnd : ids.Nodup) (hi : ids[i]? = some idi) :
    ∀ (ws : List (String × ℚ)) (acc : List ℚ) (v : ℚ),
      acc.length = ids.length → acc[i]? = some v →
      (ws.foldl (fun a w => applyWeight ids a w w0) acc)[i]? =
        some (ws.foldl (fun x w => if w.1 = idi then w.2 / w0 else x) v) := by
  intro ws
  induction ws with
  | nil => intro acc v _ hv; simpa using hv
  | cons w wt ih =>
    intro acc v hlen hv
    have hbound : i < acc.length := (List.getElem?_eq_some.mp hv).1
    have hstep : (applyWeight ids acc w w0)[i]? =
        some (if w.1 = idi then w.2 / w0 else v) := by
      unfold applyWeight
      cases hf : stdFind ids w.1 with
      | none =>
        have hne : w.1 ≠ idi := by
          intro he
          rw [he, stdFind_of_nodup ids idi hnd i hi] at hf
          cases hf
        rw [if_neg hne]
        exact hv
      | some j =>
        have hj : ids[j]? = some w.1 := stdFind_getElem? ids w.1 j hf
        by_cases he : w.1 = idi
        · have hji : j = i := by
            apply List.getElem?_inj (List.getElem?_eq_some.mp hj).1 hnd
            rw [hj, hi, he]
          subst hji
          rw [if_pos he]
          exact List.getElem?_set_self hbound
        · have hji : j ≠ i := by
            intro hji
            rw [hji, hi] at hj
            exact he (Option.some.injEq .. ▸ hj.symm)
          rw [if_neg he, List.getElem?_set_ne hji]
          exact hv
    simpa only [List.foldl_cons] using
      ih (applyWeight ids acc w w0) (if w.1 = idi then w.2 / w0 else v)
        ((applyWeight_length ids acc w w0).trans hlen) hstep

/-- Slot `i` of `fillWeights` equals the spec-side normalized weight of the id
configured at slot `i`, on a duplicate-free id list. -/
theorem fillWeights_getElem? (ids : List String) (ws : List (String × ℚ)) (w0 : ℚ)
    (i : ℕ) (idi : String) (hnd : ids.Nodup) (hi : ids[i]? = some idi) :
    (fillWeights ids ws w0)[i]? = some (specNormalizedWeight ws idi w0) := by
  have hlt : i < ids.length := (List.getElem?_eq_some.mp hi).1
  exact foldl_applyWeight_getElem? ids w0 i idi hnd hi ws
    (List.replicate ids.length 1) 1 (List.length_replicate ..)
    (List.getElem?_replicate_of_lt hlt)

/-- The single event loop over `lheProd.weights()` updates the three vectors
independently, so it equals the three per-list folds. -/
theorem foldl_triple_split (ids1 ids2 ids3 : List String) (w0 : ℚ)
    (ws : List (String × ℚ)) :
    ∀ (a b c : List ℚ),
      ws.foldl (fun acc w => (applyWeight ids1 acc.1 w w0, applyWeight ids2 acc.2.1 w w0,
          applyWeight ids3 acc.2.2 w w0)) (a, b, c) =
        (ws.foldl (fun acc w => applyWeight ids1 acc w w0) a,
         ws.foldl (fun acc w => applyWeight ids2 acc w w0) b,
         ws.foldl (fun acc w => applyWeight ids3 acc w w0) c) := by
  induction ws with
  | nil => intro a b c; rfl
  | cons w wt ih => intro a b c; simpa only [List.foldl_cons] using ih _ _ _

/-- Indexing a zip where both components are present. -/
theorem zip_getElem?_of_both {α β : Type} (l : List α) (m : List β) (i : ℕ) (a : α) (b : β)
    (ha : l[i]? = some a) (hb : m[i]? = some b) : (l.zip m)[i]? = some (a, b) := by
  rw [List.getElem?_zip_eq_some]
  exact ⟨ha, hb⟩

/-- The three tables built by `fillLHEWeightTables` carry exactly the three
per-list event-loop folds. -/
theorem fillLHE_components (cnt : Counter) (choice : DynamicWeightChoice) (g : ℚ)
    (prod : LHEEventProduct) (nIDs nLabels : List String) :
    ((fillLHEWeightTables cnt choice g prod nIDs nLabels).2.1).colVals =
      fillWeights choice.scaleWeightIDs prod.weights prod.originalXWGTUP ∧
    ((fillLHEWeightTables cnt choice g prod nIDs nLabels).2.2.1).colVals =
      fillWeights choice.pdfWeightIDs prod.weights prod.originalXWGTUP ∧
    ((fillLHEWeightTables cnt choice g prod nIDs nLabels).2.2.2).columns =
      ("originalXWGTUP", [prod.originalXWGTUP], "Nominal event weight in the LHE file") ::
        (nLabels.zip (nIDs.zip (fillWeights nIDs prod.weights prod.originalXWGTUP))).map
          (fun p => (p.1, [p.2.2], "LHE weight for id " ++ p.2.1 ++ ", relative to nominal")) := by
  simp only [fillLHEWeightTables, FlatTable.colVals, fillWeights, foldl_triple_split]
  exact ⟨trivial, trivial, trivial⟩

/-- Claim C1 (amended): provided each configured identifier list is
duplicate-free, every slot of the `LHEScaleWeight` and `LHEPdfWeight` columns
and every named `LHEWeight` column equals `w_matching / originalXWGTUP` for
the slot's configured id, where the later event occurrence wins, and `1` when
the id has no match in the event (`specNormalizedWeight`). -/
theorem c1_normalization (cnt : Counter) (choice : DynamicWeightChoice) (g : ℚ)
    (prod : LHEEventProduct) (nIDs nLabels : List String)
    (h1 : choice.scaleWeightIDs.Nodup) (h2 : choice.pdfWeightIDs.Nodup)
    (h3 : nIDs.Nodup) :
    (∀ (i : ℕ) (idi : String), choice.scaleWeightIDs[i]? = some idi →
      ((fillLHEWeightTables cnt choice g prod nIDs nLabels).2.1).colVals[i]? =
        some (specNormalizedWeight prod.weights idi prod.originalXWGTUP)) ∧
    (∀ (i : ℕ) (idi : String), choice.pdfWeightIDs[i]? = some idi →
      ((fillLHEWeightTables cnt choice g prod nIDs nLabels).2.2.1).colVals[i]? =
        some (specNormalizedWeight prod.weights idi prod.originalXWGTUP)) ∧
    (∀ (i : ℕ) (idi lab : String), nIDs[i]? = some idi → nLabels[i]? = some lab →
      ((fillLHEWeightTables cnt choice g prod nIDs nLabels).2.2.2).columns[i + 1]? =
        some (lab, [specNormalizedWeight prod.weights idi prod.originalXWGTUP],
          "LHE weight for id " ++ idi ++ ", relative to nominal")) := by
  obtain ⟨hA, hB, hC⟩ := fillLHE_components cnt choice g prod nIDs nLabels
  refine ⟨?_, ?_, ?_⟩
  · intro i idi hi
    rw [hA]
    exact fillWeights_getElem? choice.scaleWeightIDs prod.weights prod.originalXWGTUP i idi h1 hi
  · intro i idi hi
    rw [hB]
    exact fillWeights_getElem? choice.pdfWeightIDs prod.weights prod.originalXWGTUP i idi h2 hi
  · intro i idi lab hid hlab
    rw [hC, List.getElem?_cons_succ, List.getElem?_map,
      zip_getElem?_of_both nLabels (nIDs.zip
          (fillWeights nIDs prod.weights prod.originalXWGTUP)) i lab
        (idi, specNormalizedWeight prod.weights idi prod.originalXWGTUP) hlab
        (zip_getElem?_of_both nIDs (fillWeights nIDs prod.weights prod.originalXWGTUP) i idi
          (specNormalizedWeight prod.weights idi prod.originalXWGTUP) hid
          (fillWeights_getElem? nIDs prod.weights prod.originalXWGTUP i idi h3 hid)),
      Option.map_some']

/-- Witness for C1: the scale slot configured `"1001"` receives the event's
`3 / 2` with `originalXWGTUP = 2`. -/
theorem c1_witness :
    ((fillLHEWeightTables Counter.mkNew ⟨["1001", "1002"], "", [], ""⟩ 1
        ⟨2, [("1001", 3)]⟩ ["PSw0"] ["isrUp"]).2.1).colVals[0]? =
      some (specNormalizedWeight [("1001", 3)] "1001" 2) :=
  (c1_normalization Counter.mkNew ⟨["1001", "1002"], "", [], ""⟩ 1
      ⟨2, [("1001", 3)]⟩ ["PSw0"] ["isrUp"] (by decide) (by decide) (by decide)).1
    0 "1001" rfl

/-- Counterexample to C1 as stated: with the duplicate configured scale id
list `["1", "1"]` and the event weight `("1", 2)` with `originalXWGTUP = 1`,
the configured identifier of slot 1 (namely `"1"`) appears in the event, so
the claim requires slot 1 to hold `2 / 1`, but the produced column holds `1`
there (`std::find` only ever writes the first matching slot). -/
theorem c1_counterexample :
    ((fillLHEWeightTables Counter.mkNew ⟨["1", "1"], "", [], ""⟩ 1
        ⟨1, [("1", 2)]⟩ [] []).2.1).colVals[1]? = some 1 ∧
    (["1", "1"] : List String)[1]? = some "1" ∧
    specNormalizedWeight [("1", 2)] "1" 1 = 2 / 1 ∧ ((2 : ℚ) / 1 ≠ 1) :=
  ⟨rfl, rfl, rfl, by norm_num⟩

/-- Claim C3 (code bug): on an `initrwgt` block with one scale-variation
weight (id `"1"`, inner text `muR=1 muF=1`), the produced `scaleWeightsDoc`
is NOT the spec string
`"LHE scale variation weights (w_var / w_nominal); [0] is muR=1 muF=1"`: the
`std::stringstream` is constructed with the prefix as initial content but its
write position starts at 0, so the enumeration overwrites the prefix and
`str()` returns the overwritten buffer plus the leftover prefix tail.  The
second half of the claim does hold: with no scale weights collected both
`scaleWeightIDs` and `scaleWeightsDoc` stay empty. -/
theorem c3_scale_doc_mangled :
    (globalBeginRun (some [⟨"initrwgt",
        [⟨some ("", "scale_variation"), false, none, none⟩,
         ⟨none, false, some ("1", "muR=1 muF=1", 1, 1), none⟩,
         endGroupLine]⟩]) []).scaleWeightsDoc =
      "[0] is muR=1 muF=1n weights (w_var / w_nominal); " ∧
    (globalBeginRun (some [⟨"initrwgt",
        [⟨some ("", "scale_variation"), false, none, none⟩,
         ⟨none, false, some ("1", "muR=1 muF=1", 1, 1), none⟩,
         endGroupLine]⟩]) []).scaleWeightsDoc ≠
      "LHE scale variation weights (w_var / w_nominal); [0] is muR=1 muF=1" ∧
    (globalBeginRun (some [⟨"initrwgt",
        [⟨some ("", "other_group"), false, none, none⟩,
         endGroupLine]⟩]) []).scaleWeightIDs = [] ∧
    (globalBeginRun (some [⟨"initrwgt",
        [⟨some ("", "other_group"), false, none, none⟩,
         endGroupLine]⟩]) []).scaleWeightsDoc = "" := by
  refine ⟨by decide, by decide, by decide, by decide⟩

/-- Claim C4 (code bug): the warning latch starts `false` and
`exchange(false)` only ever stores `false`, so the old value read is `false`
at every no-LHE event and the "No LHEEventProduct" warning is emitted at
EVERY such event, not at most once per run: over a run with 2 no-LHE events
it fires twice, and in general `n` times over `n` events. -/
theorem c4_warning_not_once :
    warningsEmitted hasIssuedWarningAtStart 2 = 2 ∧
    ¬ (warningsEmitted hasIssuedWarningAtStart 2 ≤ 1) ∧
    ∀ n : ℕ, warningsEmitted hasIssuedWarningAtStart n = n := by
  refine ⟨by decide, by decide, ?_⟩
  intro n
  induction n with
  | zero => rfl
  | succ k ih =>
    simp only [hasIssuedWarningAtStart] at ih ⊢
    simp [warningsEmitted, exchangeFalse, ih, Nat.add_comm]

/-- Claim C5 (code bug): merging an `other` whose variation vectors are empty
into a local counter with a non-empty `sumScale` reads
`other.sumScale[i]` out of bounds (the resize guard of lines 57-59 only
covers the converse empty/non-empty direction), modelled as `none`; the
converse direction the guard does cover is total and yields the element-wise
sum. -/
theorem c5_merge_oob :
    Counter.merge ⟨0, 0, 0, [], [5], []⟩ Counter.mkNew = none ∧
    Counter.merge Counter.mkNew ⟨0, 0, 0, [], [5], []⟩ =
      some ⟨0, 0, 0, [], [5], []⟩ := by
  constructor
  · rfl
  · simp [Counter.merge, Counter.mkNew, mergeLoop, resizeIfEmpty, List.replicate]

/-- Claim C7: with no run-level LHE record `globalBeginRun` returns the
all-empty `DynamicWeightChoice`, and an event without LHE payload still emits
the three single-row, column-less LHE tables and advances the counter by
`incGenOnly` on the generator weight. -/
theorem c7_missing_lhe :
    (∀ ps : List ℕ, globalBeginRun none ps = DynamicWeightChoice.mkNew) ∧
    (∀ (c : Counter) (choice : DynamicWeightChoice) (w : ℚ)
        (nIDs nLabels : List String),
      produce c choice w none nIDs nLabels =
        (some (c.incGenOnly w),
         ⟨1, "genWeight", true, "generator weight", [("", [w], "generator weight")]⟩,
         ⟨1, "LHEScaleWeights", true, "", []⟩,
         ⟨1, "LHEPdfWeights", true, "", []⟩,
         ⟨1, "LHENamedWeights", true, "", []⟩)) :=
  ⟨fun _ => rfl, fun _ _ _ _ _ => rfl⟩

/-- Claim C8: construction fails with the configuration exception exactly when
`namedWeightIDs` and `namedWeightLabels` differ in length, and succeeds
otherwise; the check sits in the constructor body, before any run or event
hook can execute. -/
theorem c8_construction_check :
    ∀ (ps : List ℕ) (nIDs nLabels : List String),
      ((∃ e, GenWeightsTableProducer.construct ps nIDs nLabels = Except.error e) ↔
        nIDs.length ≠ nLabels.length) ∧
      (GenWeightsTableProducer.construct ps nIDs nLabels = Except.ok ⟨ps, nIDs, nLabels⟩ ↔
        nIDs.length = nLabels.length) := by
  intro ps nIDs nLabels
  by_cases h : nIDs.length = nLabels.length
  · constructor
    · simp [GenWeightsTableProducer.construct, h]
    · simp [GenWeightsTableProducer.construct, h]
  · constructor
    · simp [GenWeightsTableProducer.construct, h]
    · simp [GenWeightsTableProducer.construct, h]

/-- Claim C9: the normalization divides by `originalXWGTUP` unconditionally —
the statement quantifies over every `w0`, including `w0 = 0`, and the matched
slot is always `wv / w0`; there is no zero guard or special case in the event
loop, and the same vectors are what is handed to `Counter.incLHE`.  (Here `/`
is total field division on `ℚ`; the IEEE-float non-finiteness at `w0 = 0` is
outside the embedding.) -/
theorem c9_no_zero_guard :
    ∀ (w0 wv : ℚ) (idStr : String) (cnt : Counter) (g : ℚ),
      ((fillLHEWeightTables cnt ⟨[idStr], "", [], ""⟩ g ⟨w0, [(idStr, wv)]⟩ [] []).2.1).colVals
          = [wv / w0] ∧
      (fillLHEWeightTables cnt ⟨[idStr], "", [], ""⟩ g ⟨w0, [(idStr, wv)]⟩ [] []).1
          = cnt.incLHE g [wv / w0] [] [] := by
  intro w0 wv idStr cnt g
  constructor
  · simp [fillLHEWeightTables, FlatTable.colVals, applyWeight, stdFind]
  · simp [fillLHEWeightTables, applyWeight, stdFind]

/-- Claim C10: with equal parsed `(muR, muF)` pairs the comparator of
`ScaleVarWeight::operator<` falls back to C++ `std::string::operator<` on the
raw digit-string ids, which is lexicographic, so id `"10"` orders before id
`"9"` (because `'1' < '9'`), and the sort puts the `"10"` weight first. -/
theorem c10_lexicographic_tiebreak :
    ScaleVarWeight.ltB ⟨"10", "muR=1 muF=2", (1, 2)⟩ ⟨"9", "muR=1 muF=2", (1, 2)⟩ = true ∧
    ScaleVarWeight.ltB ⟨"9", "muR=1 muF=2", (1, 2)⟩ ⟨"10", "muR=1 muF=2", (1, 2)⟩ = false ∧
    sortScaleVar [⟨"9", "muR=1 muF=2", (1, 2)⟩, ⟨"10", "muR=1 muF=2", (1, 2)⟩] =
      [⟨"10", "muR=1 muF=2", (1, 2)⟩, ⟨"9", "muR=1 muF=2", (1, 2)⟩] := by
  refine ⟨rfl, rfl, rfl⟩
